import Mathlib

/-!
Shallow embedding of icnsutil's command-line layer (src/icnsutil/cli.py),
together with spec-modelled fragments of the core library (IcnsFile,
IcnsType, ArgbImage) that the CLI calls into but whose code is not among
the sources under study.  File writes and stderr prints are made explicit
as returned lists; exceptions become Except values.
-/

/-- ASCII whitespace recognised by Python's str.strip with no argument
(space, tab, newline, carriage return, vertical tab, form feed). -/
def pySpace (c : Char) : Bool :=
  c = ' ' || c = '\t' || c = '\n' || c = '\r' || c = Char.ofNat 11 || c = Char.ofNat 12

/-- Model of Python's str.strip(): drop leading and trailing whitespace. -/
def pyStrip (s : String) : String :=
  String.mk (((s.toList.dropWhile pySpace).reverse.dropWhile pySpace).reverse)

/-- Model of Python's str.rfind: index of the last occurrence of c, or -1. -/
def pyRfind (l : List Char) (c : Char) : Int :=
  match l.reverse.findIdx? (fun x => x = c) with
  | none => -1
  | some i => ((l.length - 1 - i : Nat) : Int)

/-- Model of Python's os.path.splitext (posixpath): split off the extension
at the last dot of the last path component, unless every character of the
component before that dot is itself a dot (leading dots carry no
extension). -/
def splitext (p : String) : String × String :=
  let l := p.toList
  let sepIndex := pyRfind l '/'
  let dotIndex := pyRfind l '.'
  if dotIndex > sepIndex &&
      (List.range l.length).any
        (fun j => decide (sepIndex < (j : Int)) && decide ((j : Int) < dotIndex) &&
          !(l.getD j '.' == '.'))
  then (String.mk (l.take dotIndex.toNat), String.mk (l.drop dotIndex.toNat))
  else (p, "")

/-- Truthiness of an optional string in Python: None and '' are falsy. -/
def pyTruthyOpt : Option String → Bool
  | none => false
  | some s => !(s == "")

/-- Model of Python's `a or b` where a is an optional string. -/
def pyOr : Option String → String → String
  | none, b => b
  | some a, b => if a == "" then b else a

/-- Helper of pySplit: accumulate the current field until the separator. -/
def pySplitAux (sep : Char) : List Char → List Char → List (List Char)
  | [], acc => [acc.reverse]
  | c :: rest, acc =>
    if c = sep then acc.reverse :: pySplitAux sep rest []
    else pySplitAux sep rest (c :: acc)

/-- Model of Python's str.split with a one-character separator: splits at
every occurrence, keeping empty fields ('a==b' gives three fields). -/
def pySplit (s : String) (sep : Char) : List String :=
  (pySplitAux sep s.toList []).map String.mk

/-- Modelled from the spec: the media entries held by icnsutil's IcnsFile,
whose code is not among the studied sources.  §3: an Entry is a 4-byte
type tag plus raw payload bytes. -/
structure Entry where
  tag : String
  payload : List Nat
deriving DecidableEq

/-- Modelled from the spec: icnsutil's IcnsFile, whose code is not among
the studied sources.  §3: an archive is an ordered sequence of entries
plus an optional lookup table, present iff the archive was built/read
with one. -/
structure IcnsFile where
  media : List Entry
  toc : Bool
deriving DecidableEq

/-- Modelled from the spec: IcnsFile.has_toc.  §3: the lookup table is
present iff the archive was built/read with one; it is not a regular
media entry, so media mutations do not change the flag. -/
def IcnsFile.has_toc (f : IcnsFile) : Bool := f.toc

/-- Modelled from the spec: IcnsFile.remove_media.  §4.1: removes at most
one entry; returns whether a removal occurred; never fails on a missing
tag (no-op, returns false). -/
def remove_media : List Entry → String → List Entry × Bool
  | [], _ => ([], false)
  | e :: rest, tag =>
    if e.tag = tag then (rest, true)
    else
      let r := remove_media rest tag
      (e :: r.1, r.2)

/-- Helper for the forced add of the spec's §4.1: replace the first entry
carrying the tag, keeping its position. -/
def replaceFirst : List Entry → String → List Nat → List Entry
  | [], _, _ => []
  | e :: rest, tag, payload =>
    if e.tag = tag then ⟨tag, payload⟩ :: rest
    else e :: replaceFirst rest tag payload

/-- Errors raised inside cli_update: ArgumentTypeError and the tuple-unpack
ValueError from the CLI itself, plus resolution and duplicate errors of
the spec-modelled core. -/
inductive UpdateErr where
  | argFormat (kv : String)
  | fileMissing (path : String)
  | unpackMismatch (kv : String)
  | unknownKey (key : String)
  | duplicateEntry (tag : String)
deriving DecidableEq

/-- Modelled from the spec: IcnsFile.add_media for an already-resolved tag.
§4.1: fails with DuplicateEntryError unless force or no existing entry
shares the tag; on force the old entry is replaced in place (same
position) rather than appended; otherwise the new entry is appended. -/
def add_media (media : List Entry) (tag : String) (payload : List Nat)
    (force : Bool) : Except UpdateErr (List Entry) :=
  if media.any (fun e => e.tag == tag) then
    if force then .ok (replaceFirst media tag payload)
    else .error (.duplicateEntry tag)
  else .ok (media ++ [⟨tag, payload⟩])

/-- Modelled from the spec: icnsutil's ArgbImage, whose code is not among
the studied sources.  §4.4/§4.5: an image with explicit width and height
and per-pixel (alpha, red, green, blue) samples in row-major order. -/
structure ArgbImage where
  width : Nat
  height : Nat
  pixels : List (Nat × Nat × Nat × Nat)
deriving DecidableEq

/-- The (width, height) pair exposed as ArgbImage.size. -/
def ArgbImage.size (img : ArgbImage) : Nat × Nat := (img.width, img.height)

/-- Interleaved R, G, B bytes of an (a, r, g, b) pixel list. -/
def rgbBytes : List (Nat × Nat × Nat × Nat) → List Nat
  | [] => []
  | (_, r, g, b) :: rest => r :: g :: b :: rgbBytes rest

/-- Modelled from the spec: ArgbImage.rgb_data.  §4.4: interleaved 8-bit
R,G,B triples for every pixel in row-major order. -/
def ArgbImage.rgb_data (img : ArgbImage) : List Nat := rgbBytes img.pixels

/-- Modelled from the spec: ArgbImage.mask_data.  §4.4: one 8-bit alpha
sample per pixel in the same order. -/
def ArgbImage.mask_data (img : ArgbImage) : List Nat :=
  img.pixels.map (fun p => p.1)

/-- Embedding of cli.py enum_with_stdin (lines 125-131).  The second
argument models the lines buffered in sys.stdin; readlines() consumes
them all, so later '-' arguments read an exhausted stream. -/
def enum_with_stdin : List String → List String → List String
  | [], _ => []
  | x :: xs, stdin =>
    if x = "-" then stdin.map pyStrip ++ enum_with_stdin xs []
    else x :: enum_with_stdin xs stdin

/-- Arguments of the convert sub-command. -/
structure ConvertArgs where
  target : String
  source : String
  raw : Bool
deriving DecidableEq

/-- What cli_convert writes to a file: a PNG or ARGB encoding of the image
(content kept abstract) or raw bytes. -/
inductive FileData where
  | png (img : ArgbImage)
  | argb (img : ArgbImage)
  | bytes (bs : List Nat)
deriving DecidableEq

/-- cli.py lines 103-105: dest = source + '.' + target when target is
literally png, argb or rgb; otherwise dest = target. -/
def convertDest (args : ConvertArgs) : String :=
  if args.target == "png" || args.target == "argb" || args.target == "rgb"
  then args.source ++ "." ++ args.target
  else args.target

/-- Embedding of cli.py cli_convert (lines 97-122).  Returns the performed
(path, data) writes and the stderr messages; the image argument stands
for ArgbImage(file=args.source) after the optional load_mask call. -/
def cli_convert (args : ConvertArgs) (img : ArgbImage) :
    List (String × FileData) × List String :=
  let dest := convertDest args
  let ext := (splitext dest).2
  if ext = ".png" then ([(dest, .png img)], [])
  else if ext = ".argb" then ([(dest, .argb img)], [])
  else if ext = ".rgb" then
    ([(dest, .bytes
        ((if args.raw = false ∧ img.size = (128, 128) then [0, 0, 0, 0] else [])
          ++ img.rgb_data)),
      (dest ++ ".mask", .bytes img.mask_data)], [])
  else
    ([], ["Could not determine target image-type for file \"" ++ dest ++ "\"."])

/-- Arguments of the compose sub-command. -/
structure ComposeArgs where
  target : String
  force : Bool
  no_toc : Bool
  source : List String

/-- cli.py lines 33-35: append '.icns' when the target has no extension. -/
def composeDest (target : String) : String :=
  if (splitext target).2 = "" then target ++ ".icns" else target

/-- The `for x in enum_with_stdin(args.source)` loop of cli_compose
(lines 42-43): img.add_media(file=x) is called for every source in turn;
a raised error aborts the loop and propagates. -/
def composeAdd {ε : Type} (addFile : List Entry → String → Except ε (List Entry)) :
    List String → List Entry → Except ε (List Entry)
  | [], media => .ok media
  | x :: xs, media => (addFile media x).bind fun m2 => composeAdd addFile xs m2

/-- Embedding of cli.py cli_compose (lines 31-44).  `pexists` models
os.path.exists; `addFile` is the spec-modelled IcnsFile.add_media(file=x)
(§4.1/§4.2: the tag is resolved from the file's own content and
dimensions, and the call may fail — no force flag is passed, so e.g.
DuplicateEntryError can be raised — with error type ε kept abstract).
On normal return: the (path, media, toc flag) writes and the stderr
messages; a raised error propagates with no write performed. -/
def cli_compose {ε : Type} (pexists : String → Bool)
    (addFile : List Entry → String → Except ε (List Entry))
    (stdin : List String) (args : ComposeArgs) :
    Except ε (List (String × List Entry × Bool) × List String) :=
  let dest := composeDest args.target
  if !args.force && pexists dest then
    .ok ([], ["File \"" ++ dest ++ "\" already exists. Force overwrite with -f."])
  else
    (composeAdd addFile (enum_with_stdin args.source stdin) []).bind fun media =>
      .ok ([(dest, media, !args.no_toc)], [])

/-- Arguments of the update sub-command; rm and set are [] when the flag
was not given (cli.py writes `args.rm or []`). -/
structure UpdateArgs where
  file : String
  output : Option String
  rm : List String
  set : List String

/-- The `for x in args.rm` loop of cli_update (lines 52-53): resolve each
readable key (`keyRes` models IcnsType.key_from_readable, none meaning it
raises) and remove it, or-ing the result into has_changes. -/
def updateRm (keyRes : String → Option String) :
    List String → List Entry → Bool → Except UpdateErr (List Entry × Bool)
  | [], media, hc => .ok (media, hc)
  | x :: xs, media, hc =>
    match keyRes x with
    | none => .error (.unknownKey x)
    | some tag =>
      let r := remove_media media tag
      updateRm keyRes xs r.1 (hc || r.2)

/-- One iteration of the `for key_val in args.set` loop of cli_update
(lines 55-68): '=' must occur in the argument, split('=') must yield
exactly a key and a value (tuple unpacking), the value must be nonempty
and name an existing file; then add_media is called with force=True. -/
def updateSetStep (keyRes : String → Option String) (isfile : String → Bool)
    (fileBytes : String → List Nat) (kv : String) (media : List Entry) :
    Except UpdateErr (List Entry) :=
  if kv.toList.contains '=' = false then .error (.argFormat kv)
  else
    match pySplit kv '=' with
    | [key, val] =>
      if val = "" then .error (.argFormat kv)
      else if isfile val = false then .error (.fileMissing val)
      else
        match keyRes key with
        | none => .error (.unknownKey key)
        | some tag => add_media media tag (fileBytes val) true
    | _ => .error (.unpackMismatch kv)

/-- The `for key_val in args.set` loop of cli_update: every processed
argument sets has_changes to True; a raised error aborts the loop. -/
def updateSet (keyRes : String → Option String) (isfile : String → Bool)
    (fileBytes : String → List Nat) :
    List String → List Entry → Bool → Except UpdateErr (List Entry × Bool)
  | [], media, hc => .ok (media, hc)
  | kv :: rest, media, _hc =>
    (updateSetStep keyRes isfile fileBytes kv media).bind
      (fun m2 => updateSet keyRes isfile fileBytes rest m2 true)

/-- Embedding of cli.py cli_update (lines 47-71).  Returns the list of
performed writes (path, media, toc flag) or the raised error; the icns
argument stands for IcnsFile(args.file). -/
def cli_update (keyRes : String → Option String) (isfile : String → Bool)
    (fileBytes : String → List Nat) (args : UpdateArgs) (icns : IcnsFile) :
    Except UpdateErr (List (String × List Entry × Bool)) :=
  (updateRm keyRes args.rm icns.media false).bind fun r1 =>
    (updateSet keyRes isfile fileBytes args.set r1.1 r1.2).bind fun r2 =>
      if r2.2 || pyTruthyOpt args.output then
        .ok [(pyOr args.output args.file, r2.1,
          IcnsFile.has_toc { media := r2.1, toc := icns.toc })]
      else .ok []

/-- A -set argument that cli_update must reject: no '=', an empty value
after the '=', or a value naming no existing file. -/
def BadSetArg (isfile : String → Bool) (kv : String) : Bool :=
  !kv.toList.contains '=' ||
    (match pySplit kv '=' with
     | [_, v] => v == "" || !isfile v
     | _ => false)

/-! ## Helper lemmas -/

theorem rgbBytes_length (l : List (Nat × Nat × Nat × Nat)) :
    (rgbBytes l).length = 3 * l.length := by
  induction l with
  | nil => rfl
  | cons p rest ih =>
    obtain ⟨a, r, g, b⟩ := p
    simp only [rgbBytes, List.length_cons, ih]
    ring

theorem cli_convert_rgb_eq (args : ConvertArgs) (img : ArgbImage)
    (hext : (splitext (convertDest args)).2 = ".rgb") :
    cli_convert args img =
      ([(convertDest args, FileData.bytes
          ((if args.raw = false ∧ img.size = (128, 128) then [0, 0, 0, 0] else [])
            ++ img.rgb_data)),
        (convertDest args ++ ".mask", FileData.bytes img.mask_data)], []) := by
  simp only [cli_convert, hext]
  rw [if_neg (by decide : ¬(".rgb" : String) = ".png"),
    if_neg (by decide : ¬(".rgb" : String) = ".argb"), if_pos trivial]

/-! ## Claim theorems: convert -/

/-- C1: when cli_convert writes a .rgb target, the byte stream starts with
a four-zero-byte prefix before the RGB data iff the raw flag is unset and
the source image size is exactly (128, 128); for every other size or with
raw set, the RGB data is written with no prefix.  The non-raw 128x128
output is 4 bytes longer than width*height*3 and begins with four zero
bytes. -/
theorem cli_convert_rgb_prefix (args : ConvertArgs) (img : ArgbImage)
    (hpx : img.pixels.length = img.width * img.height)
    (hext : (splitext (convertDest args)).2 = ".rgb") :
    ∃ bs,
      (cli_convert args img).1.head? = some (convertDest args, FileData.bytes bs) ∧
      (args.raw = false ∧ img.size = (128, 128) →
        bs = [0, 0, 0, 0] ++ img.rgb_data ∧
        bs.length = 128 * 128 * 3 + 4 ∧ bs.take 4 = [0, 0, 0, 0]) ∧
      ((args.raw = true ∨ img.size ≠ (128, 128)) → bs = img.rgb_data) := by
  refine ⟨(if args.raw = false ∧ img.size = (128, 128) then [0, 0, 0, 0] else [])
      ++ img.rgb_data, ?_, ?_, ?_⟩
  · rw [cli_convert_rgb_eq args img hext]
    rfl
  · rintro ⟨h1, h2⟩
    rw [if_pos ⟨h1, h2⟩]
    have hw : img.width = 128 := congrArg Prod.fst h2
    have hh : img.height = 128 := congrArg Prod.snd h2
    refine ⟨rfl, ?_, rfl⟩
    have hlen : img.rgb_data.length = 3 * (128 * 128) := by
      rw [ArgbImage.rgb_data, rgbBytes_length, hpx, hw, hh]
    simp only [List.length_append, hlen]
    norm_num
  · intro h
    have hneg : ¬(args.raw = false ∧ img.size = (128, 128)) := by
      rintro ⟨h1, h2⟩
      rcases h with h | h
      · rw [h1] at h; exact Bool.false_ne_true h
      · exact h h2
    rw [if_neg hneg, List.nil_append]

/-- Witness for C1 at a concrete 128x128 image converted with target
literally 'rgb' and the raw flag unset. -/
theorem cli_convert_rgb_prefix_witness :
    ∃ bs,
      (cli_convert ⟨"rgb", "s.png", false⟩
          ⟨128, 128, List.replicate (128 * 128) (0, 0, 0, 0)⟩).1.head? =
        some (convertDest ⟨"rgb", "s.png", false⟩, FileData.bytes bs) ∧
      ((⟨"rgb", "s.png", false⟩ : ConvertArgs).raw = false ∧
          (⟨128, 128, List.replicate (128 * 128) (0, 0, 0, 0)⟩ : ArgbImage).size = (128, 128) →
        bs = [0, 0, 0, 0] ++
          (⟨128, 128, List.replicate (128 * 128) (0, 0, 0, 0)⟩ : ArgbImage).rgb_data ∧
        bs.length = 128 * 128 * 3 + 4 ∧ bs.take 4 = [0, 0, 0, 0]) ∧
      (((⟨"rgb", "s.png", false⟩ : ConvertArgs).raw = true ∨
          (⟨128, 128, List.replicate (128 * 128) (0, 0, 0, 0)⟩ : ArgbImage).size ≠ (128, 128)) →
        bs = (⟨128, 128, List.replicate (128 * 128) (0, 0, 0, 0)⟩ : ArgbImage).rgb_data) :=
  cli_convert_rgb_prefix ⟨"rgb", "s.png", false⟩
    ⟨128, 128, List.replicate (128 * 128) (0, 0, 0, 0)⟩
    (by rw [List.length_replicate]) (by decide)

/-- C2: every .rgb conversion writes exactly two files: the RGB stream to
the target path and the single-channel alpha mask stream to the target
path with '.mask' appended. -/
theorem cli_convert_rgb_mask_file (args : ConvertArgs) (img : ArgbImage)
    (hext : (splitext (convertDest args)).2 = ".rgb") :
    ∃ bs, (cli_convert args img).1 =
      [(convertDest args, FileData.bytes bs),
       (convertDest args ++ ".mask", FileData.bytes img.mask_data)] :=
  ⟨_, by rw [cli_convert_rgb_eq args img hext]⟩

/-- Witness for C2 at a concrete 1x1 image and an explicit .rgb path. -/
theorem cli_convert_rgb_mask_file_witness :
    ∃ bs, (cli_convert ⟨"out.rgb", "s", true⟩ ⟨1, 1, [(9, 1, 2, 3)]⟩).1 =
      [(convertDest ⟨"out.rgb", "s", true⟩, FileData.bytes bs),
       (convertDest ⟨"out.rgb", "s", true⟩ ++ ".mask",
        FileData.bytes (⟨1, 1, [(9, 1, 2, 3)]⟩ : ArgbImage).mask_data)] :=
  cli_convert_rgb_mask_file ⟨"out.rgb", "s", true⟩ ⟨1, 1, [(9, 1, 2, 3)]⟩ (by decide)

/-- C10: when the target is not literally png/argb/rgb and its extension
is none of .png/.argb/.rgb, cli_convert writes nothing and reports an
error on stderr. -/
theorem cli_convert_unknown_target (args : ConvertArgs) (img : ArgbImage)
    (h1 : args.target ≠ "png" ∧ args.target ≠ "argb" ∧ args.target ≠ "rgb")
    (h2 : (splitext args.target).2 ≠ ".png" ∧ (splitext args.target).2 ≠ ".argb" ∧
      (splitext args.target).2 ≠ ".rgb") :
    (cli_convert args img).1 = [] ∧
      (cli_convert args img).2 =
        ["Could not determine target image-type for file \"" ++ args.target ++ "\"."] := by
  obtain ⟨t1, t2, t3⟩ := h1
  obtain ⟨e1, e2, e3⟩ := h2
  have hdest : convertDest args = args.target := by
    unfold convertDest
    rw [if_neg]
    simp [t1, t2, t3]
  have hc : cli_convert args img =
      ([], ["Could not determine target image-type for file \"" ++ args.target ++ "\"."]) := by
    simp only [cli_convert, hdest]
    rw [if_neg e1, if_neg e2, if_neg e3]
  exact ⟨by rw [hc], by rw [hc]⟩

/-- Witness for C10 at the concrete target 'out.txt'. -/
theorem cli_convert_unknown_target_witness :
    (cli_convert ⟨"out.txt", "s", false⟩ ⟨1, 1, []⟩).1 = [] ∧
      (cli_convert ⟨"out.txt", "s", false⟩ ⟨1, 1, []⟩).2 =
        ["Could not determine target image-type for file \"" ++
          (⟨"out.txt", "s", false⟩ : ConvertArgs).target ++ "\"."] :=
  cli_convert_unknown_target ⟨"out.txt", "s", false⟩ ⟨1, 1, []⟩
    (by decide) (by decide)

/-! ## Claim theorems: enum_with_stdin -/

theorem enum_no_dash (l : List String) (stdin : List String) (h : "-" ∉ l) :
    enum_with_stdin l stdin = l := by
  induction l generalizing stdin with
  | nil => rfl
  | cons x xs ih =>
    rw [List.mem_cons, not_or] at h
    obtain ⟨h1, h2⟩ := h
    simp only [enum_with_stdin, if_neg (fun hx : x = "-" => h1 hx.symm), ih stdin h2]

theorem enum_dash_split (a b stdin : List String) (ha : "-" ∉ a) :
    enum_with_stdin (a ++ "-" :: b) stdin =
      a ++ stdin.map pyStrip ++ enum_with_stdin b [] := by
  induction a with
  | nil => simp [enum_with_stdin]
  | cons x xs ih =>
    rw [List.mem_cons, not_or] at ha
    obtain ⟨h1, h2⟩ := ha
    simp only [List.cons_append, enum_with_stdin, if_neg (fun hx : x = "-" => h1 hx.symm),
      List.append_eq]
    rw [ih h2]

theorem enum_exhausted (b : List String) :
    enum_with_stdin b [] = b.filter (fun x => !(x == "-")) := by
  induction b with
  | nil => rfl
  | cons x xs ih =>
    by_cases hx : x = "-"
    · subst hx
      simp [enum_with_stdin, ih]
    · simp [enum_with_stdin, hx, ih]

/-- C8: enum_with_stdin yields each non-'-' argument unchanged in order,
and in place of each '-' it yields the lines currently readable from
stdin, stripped, in input order; the first '-' consumes the whole buffer,
so later reads find it exhausted. -/
theorem enum_with_stdin_spec (a b stdin : List String) (ha : "-" ∉ a) :
    enum_with_stdin a stdin = a ∧
    enum_with_stdin (a ++ "-" :: b) stdin =
      a ++ stdin.map pyStrip ++ enum_with_stdin b [] ∧
    enum_with_stdin b [] = b.filter (fun x => !(x == "-")) :=
  ⟨enum_no_dash a stdin ha, enum_dash_split a b stdin ha, enum_exhausted b⟩

/-- Witness for C8 at concrete argument and stdin lists. -/
theorem enum_with_stdin_spec_witness :
    enum_with_stdin ["f1"] [" x ", "y\n"] = ["f1"] ∧
    enum_with_stdin (["f1"] ++ "-" :: ["f2", "-"]) [" x ", "y\n"] =
      ["f1"] ++ [" x ", "y\n"].map pyStrip ++ enum_with_stdin ["f2", "-"] [] ∧
    enum_with_stdin ["f2", "-"] [] = ["f2", "-"].filter (fun x => !(x == "-")) :=
  enum_with_stdin_spec ["f1"] ["f2", "-"] [" x ", "y\n"] (by decide)

/-! ## Claim theorems: compose -/

theorem exceptBind_ok {ε α β : Type} (a : α) (f : α → Except ε β) :
    (Except.ok a : Except ε α).bind f = f a := rfl

theorem exceptBind_error {ε α β : Type} (e : ε) (f : α → Except ε β) :
    (Except.error e : Except ε α).bind f = .error e := rfl

theorem cli_compose_refuse {ε : Type} (pexists : String → Bool)
    (addFile : List Entry → String → Except ε (List Entry)) (stdin : List String)
    (args : ComposeArgs) (h1 : args.force = false)
    (h2 : pexists (composeDest args.target) = true) :
    cli_compose pexists addFile stdin args =
      .ok ([], ["File \"" ++ composeDest args.target ++
        "\" already exists. Force overwrite with -f."]) := by
  simp only [cli_compose]
  rw [h1, h2]
  rfl

theorem cli_compose_proceed {ε : Type} (pexists : String → Bool)
    (addFile : List Entry → String → Except ε (List Entry)) (stdin : List String)
    (args : ComposeArgs)
    (h : args.force = true ∨ pexists (composeDest args.target) = false) :
    cli_compose pexists addFile stdin args =
      (composeAdd addFile (enum_with_stdin args.source stdin) []).bind fun media =>
        .ok ([(composeDest args.target, media, !args.no_toc)], []) := by
  simp only [cli_compose]
  rcases h with h | h
  · rw [h]
    rfl
  · rw [h]
    simp

/-- C4 (amended): with the force flag unset and the destination already
existing, cli_compose returns without constructing an archive and without
writing; with force set or the destination absent, it builds the archive
from all sources and writes it provided every add_media call succeeds,
while a failing add_media aborts with the error and no write. -/
theorem cli_compose_force_check {ε : Type} (pexists : String → Bool)
    (addFile : List Entry → String → Except ε (List Entry)) (stdin : List String)
    (args : ComposeArgs) :
    (args.force = false ∧ pexists (composeDest args.target) = true →
      cli_compose pexists addFile stdin args =
        .ok ([], ["File \"" ++ composeDest args.target ++
          "\" already exists. Force overwrite with -f."])) ∧
    (args.force = true ∨ pexists (composeDest args.target) = false →
      (∀ media, composeAdd addFile (enum_with_stdin args.source stdin) [] = .ok media →
        cli_compose pexists addFile stdin args =
          .ok ([(composeDest args.target, media, !args.no_toc)], [])) ∧
      (∀ e, composeAdd addFile (enum_with_stdin args.source stdin) [] = .error e →
        cli_compose pexists addFile stdin args = .error e)) := by
  constructor
  · rintro ⟨h1, h2⟩
    exact cli_compose_refuse pexists addFile stdin args h1 h2
  · intro h
    rw [cli_compose_proceed pexists addFile stdin args h]
    constructor
    · intro media hm
      rw [hm, exceptBind_ok]
    · intro e he
      rw [he, exceptBind_error]

/-- Counterexample to C4 as stated: with the force flag set, a failing
add_media (here: every add fails, as a forced duplicate or unreadable
source would) aborts cli_compose with the error and nothing is written,
so 'force set implies it writes' is false. -/
theorem cli_compose_force_check_cex :
    (⟨"dest", true, false, ["s"]⟩ : ComposeArgs).force = true ∧
    ∀ ws, cli_compose (fun _ => false)
        (fun _ _ => (Except.error 0 : Except Nat (List Entry))) []
        ⟨"dest", true, false, ["s"]⟩ ≠ .ok ws := by
  refine ⟨rfl, fun ws h => ?_⟩
  have h2 : (Except.error 0 :
      Except Nat (List (String × List Entry × Bool) × List String)) = .ok ws := h
  simp at h2

/-- Witness for C4: a refused compose on an existing destination, and a
successful one that writes the folded archive. -/
theorem cli_compose_force_check_witness :
    cli_compose (fun _ => true)
        (fun m s => (Except.ok (m ++ [⟨s, []⟩]) : Except Nat (List Entry))) []
        ⟨"dest", false, false, ["s"]⟩ =
      .ok ([], ["File \"" ++ composeDest "dest" ++
        "\" already exists. Force overwrite with -f."]) ∧
    cli_compose (fun _ => false)
        (fun m s => (Except.ok (m ++ [⟨s, []⟩]) : Except Nat (List Entry))) []
        ⟨"dest", true, false, ["s"]⟩ =
      .ok ([(composeDest "dest", [⟨"s", []⟩], true)], []) := by
  refine ⟨(cli_compose_force_check _ _ _ _).1 ⟨rfl, rfl⟩,
    ((cli_compose_force_check _ _ _ _).2 (Or.inl rfl)).1 [⟨"s", []⟩] ?_⟩
  rfl

theorem cli_compose_writes {ε : Type} (pexists : String → Bool)
    (addFile : List Entry → String → Except ε (List Entry)) (stdin : List String)
    (args : ComposeArgs) :
    (∀ ws, cli_compose pexists addFile stdin args = .ok ws →
      ∀ w ∈ ws.1, w.1 = composeDest args.target) ∧
    (cli_compose pexists addFile stdin args =
        .ok ([], ["File \"" ++ composeDest args.target ++
          "\" already exists. Force overwrite with -f."]) ↔
      args.force = false ∧ pexists (composeDest args.target) = true) := by
  by_cases h1 : args.force = false
  · by_cases h2 : pexists (composeDest args.target) = true
    · rw [cli_compose_refuse pexists addFile stdin args h1 h2]
      constructor
      · intro ws hws w hw
        simp only [Except.ok.injEq] at hws
        subst hws
        exact absurd hw (List.not_mem_nil w)
      · simp [h1, h2]
    · have h2' : pexists (composeDest args.target) = false := by
        cases hb : pexists (composeDest args.target) <;> simp_all
      rw [cli_compose_proceed pexists addFile stdin args (Or.inr h2')]
      constructor
      · intro ws hws w hw
        rcases hadd : composeAdd addFile (enum_with_stdin args.source stdin) []
          with e | media <;> rw [hadd] at hws
        · rw [exceptBind_error] at hws
          exact absurd hws (by simp)
        · rw [exceptBind_ok] at hws
          simp only [Except.ok.injEq] at hws
          subst hws
          rw [List.mem_singleton] at hw
          rw [hw]
      · constructor
        · intro hres
          exfalso
          rcases hadd : composeAdd addFile (enum_with_stdin args.source stdin) []
            with e | media <;> rw [hadd] at hres
          · rw [exceptBind_error] at hres
            exact absurd hres (by simp)
          · rw [exceptBind_ok] at hres
            simp at hres
        · rintro ⟨hf, hp⟩
          rw [hp] at h2'
          exact absurd h2' (by simp)
  · have h1' : args.force = true := by
      cases hb : args.force <;> simp_all
    rw [cli_compose_proceed pexists addFile stdin args (Or.inl h1')]
    constructor
    · intro ws hws w hw
      rcases hadd : composeAdd addFile (enum_with_stdin args.source stdin) []
        with e | media <;> rw [hadd] at hws
      · rw [exceptBind_error] at hws
        exact absurd hws (by simp)
      · rw [exceptBind_ok] at hws
        simp only [Except.ok.injEq] at hws
        subst hws
        rw [List.mem_singleton] at hw
        rw [hw]
    · constructor
      · intro hres
        exfalso
        rcases hadd : composeAdd addFile (enum_with_stdin args.source stdin) []
          with e | media <;> rw [hadd] at hres
        · rw [exceptBind_error] at hres
          exact absurd hres (by simp)
        · rw [exceptBind_ok] at hres
          simp at hres
      · rintro ⟨hf, hp⟩
        rw [hf] at h1'
        exact (Bool.false_ne_true h1').elim

/-- C9: a target without extension gets '.icns' appended before both the
existence check and the write; a target with an extension is used
verbatim in both.  Every performed write uses that destination, and the
existing-destination refusal fires exactly when the appended destination
exists while force is unset. -/
theorem cli_compose_ext_append {ε : Type} (pexists : String → Bool)
    (addFile : List Entry → String → Except ε (List Entry)) (stdin : List String)
    (args : ComposeArgs) :
    ((splitext args.target).2 = "" →
      composeDest args.target = args.target ++ ".icns" ∧
      (∀ ws, cli_compose pexists addFile stdin args = .ok ws →
        ∀ w ∈ ws.1, w.1 = args.target ++ ".icns") ∧
      (cli_compose pexists addFile stdin args =
          .ok ([], ["File \"" ++ (args.target ++ ".icns") ++
            "\" already exists. Force overwrite with -f."]) ↔
        args.force = false ∧ pexists (args.target ++ ".icns") = true)) ∧
    ((splitext args.target).2 ≠ "" →
      composeDest args.target = args.target ∧
      (∀ ws, cli_compose pexists addFile stdin args = .ok ws →
        ∀ w ∈ ws.1, w.1 = args.target) ∧
      (cli_compose pexists addFile stdin args =
          .ok ([], ["File \"" ++ args.target ++
            "\" already exists. Force overwrite with -f."]) ↔
        args.force = false ∧ pexists args.target = true)) := by
  have hw := cli_compose_writes pexists addFile stdin args
  constructor
  · intro he
    have hd : composeDest args.target = args.target ++ ".icns" := by
      unfold composeDest
      rw [if_pos he]
    refine ⟨hd, ?_, ?_⟩
    · rw [← hd]
      exact hw.1
    · rw [← hd]
      exact hw.2
  · intro he
    have hd : composeDest args.target = args.target := by
      unfold composeDest
      rw [if_neg he]
    refine ⟨hd, ?_, ?_⟩
    · rw [← hd]
      exact hw.1
    · rw [← hd]
      exact hw.2

/-- Witness for C9 at a concrete extensionless target. -/
theorem cli_compose_ext_append_witness :
    composeDest "dest" = "dest" ++ ".icns" ∧
    (∀ ws, cli_compose (fun _ => false)
        (fun m s => (Except.ok (m ++ [⟨s, []⟩]) : Except Nat (List Entry))) []
        ⟨"dest", false, false, ["s"]⟩ = .ok ws →
      ∀ w ∈ ws.1, w.1 = "dest" ++ ".icns") ∧
    (cli_compose (fun _ => false)
        (fun m s => (Except.ok (m ++ [⟨s, []⟩]) : Except Nat (List Entry))) []
        ⟨"dest", false, false, ["s"]⟩ =
        .ok ([], ["File \"" ++ ("dest" ++ ".icns") ++
          "\" already exists. Force overwrite with -f."]) ↔
      (⟨"dest", false, false, ["s"]⟩ : ComposeArgs).force = false ∧
        (fun _ => false) ("dest" ++ ".icns") = true) :=
  (cli_compose_ext_append (fun _ => false)
    (fun m s => (Except.ok (m ++ [⟨s, []⟩]) : Except Nat (List Entry))) []
    ⟨"dest", false, false, ["s"]⟩).1 (by decide)

/-! ## Helper lemmas: update -/

theorem add_media_force_ok (media : List Entry) (tag : String) (payload : List Nat) :
    add_media media tag payload true =
      .ok (if media.any (fun e => e.tag == tag) then replaceFirst media tag payload
        else media ++ [⟨tag, payload⟩]) := by
  unfold add_media
  by_cases h : media.any (fun e => e.tag == tag) = true <;> simp [h]

theorem replaceFirst_map_tag (media : List Entry) (tag : String) (payload : List Nat) :
    (replaceFirst media tag payload).map Entry.tag = media.map Entry.tag := by
  induction media with
  | nil => rfl
  | cons e rest ih =>
    by_cases h : e.tag = tag
    · simp [replaceFirst, h]
    · simp [replaceFirst, h, ih]

theorem remove_media_absent (media : List Entry) (tag : String)
    (h : ∀ e ∈ media, e.tag ≠ tag) : remove_media media tag = (media, false) := by
  induction media with
  | nil => rfl
  | cons e rest ih =>
    have h1 : e.tag ≠ tag := h e (List.mem_cons_self e rest)
    have h2 : ∀ x ∈ rest, x.tag ≠ tag := fun x hx => h x (List.mem_cons_of_mem e hx)
    simp [remove_media, h1, ih h2]

theorem updateRm_noop (keyRes : String → Option String) (l : List String)
    (media : List Entry)
    (h : ∀ x ∈ l, ∃ t, keyRes x = some t ∧ ∀ e ∈ media, e.tag ≠ t) :
    updateRm keyRes l media false = .ok (media, false) := by
  induction l with
  | nil => rfl
  | cons x xs ih =>
    obtain ⟨t, ht, habs⟩ := h x (List.mem_cons_self x xs)
    simp only [updateRm, ht]
    rw [remove_media_absent media t habs]
    exact ih (fun y hy => h y (List.mem_cons_of_mem x hy))

theorem updateRm_no_dup (keyRes : String → Option String) (l : List String) :
    ∀ (media : List Entry) (hc : Bool) (t : String),
      updateRm keyRes l media hc ≠ .error (.duplicateEntry t) := by
  induction l with
  | nil =>
    intro media hc t h
    simp [updateRm] at h
  | cons x xs ih =>
    intro media hc t h
    simp only [updateRm] at h
    rcases hk : keyRes x with _ | tag <;> rw [hk] at h
    · simp at h
    · exact ih _ _ t h


theorem updateSetStep_no_dup (keyRes : String → Option String)
    (isfile : String → Bool) (fileBytes : String → List Nat)
    (kv : String) (media : List Entry) (t : String) :
    updateSetStep keyRes isfile fileBytes kv media ≠ .error (.duplicateEntry t) := by
  intro h
  unfold updateSetStep at h
  split at h
  · simp at h
  · split at h
    · split at h
      · simp at h
      · split at h
        · simp at h
        · split at h
          · simp at h
          · rw [add_media_force_ok] at h
            simp at h
    · simp at h

theorem updateSetStep_err_of_bad (keyRes : String → Option String)
    (isfile : String → Bool) (fileBytes : String → List Nat)
    (kv : String) (media : List Entry) (hbad : BadSetArg isfile kv = true) :
    ∃ e, updateSetStep keyRes isfile fileBytes kv media = .error e := by
  unfold updateSetStep
  by_cases hc1 : kv.toList.contains '=' = false
  · rw [if_pos hc1]
    exact ⟨_, rfl⟩
  · rw [if_neg hc1]
    have hc1' : kv.toList.contains '=' = true := by
      revert hc1
      cases kv.toList.contains '=' <;> simp
    rcases hsplit : pySplit kv '=' with _ | ⟨key, tl⟩
    · exact ⟨_, rfl⟩
    · rcases tl with _ | ⟨val, tl2⟩
      · exact ⟨_, rfl⟩
      · rcases tl2 with _ | ⟨z, tl3⟩
        · show ∃ e, (if val = "" then Except.error (UpdateErr.argFormat kv)
            else if isfile val = false then Except.error (UpdateErr.fileMissing val)
            else match keyRes key with
              | none => Except.error (UpdateErr.unknownKey key)
              | some tag => add_media media tag (fileBytes val) true) = Except.error e
          by_cases hval : val = ""
          · rw [if_pos hval]
            exact ⟨_, rfl⟩
          · rw [if_neg hval]
            by_cases hfile : isfile val = false
            · rw [if_pos hfile]
              exact ⟨_, rfl⟩
            · exfalso
              have hfile' : isfile val = true := by
                revert hfile
                cases isfile val <;> simp
              unfold BadSetArg at hbad
              rw [hc1', hsplit] at hbad
              have hbad2 : (!true || (val == "" || !isfile val)) = true := hbad
              simp [hval, hfile'] at hbad2
        · exact ⟨_, rfl⟩

theorem updateSetStep_eq_add (keyRes : String → Option String)
    (isfile : String → Bool) (fileBytes : String → List Nat)
    (kv key val tag : String) (media : List Entry)
    (h1 : kv.toList.contains '=' = true) (h2 : pySplit kv '=' = [key, val])
    (h3 : val ≠ "") (h4 : isfile val = true) (h5 : keyRes key = some tag) :
    updateSetStep keyRes isfile fileBytes kv media =
      add_media media tag (fileBytes val) true := by
  unfold updateSetStep
  have hcond : ¬(kv.toList.contains '=' = false) := by
    rw [h1]
    decide
  rw [if_neg hcond, h2]
  show (if val = "" then Except.error (UpdateErr.argFormat kv)
    else if isfile val = false then Except.error (UpdateErr.fileMissing val)
    else match keyRes key with
      | none => Except.error (UpdateErr.unknownKey key)
      | some tag => add_media media tag (fileBytes val) true) = _
  rw [if_neg h3, if_neg (by simp [h4]), h5]

theorem updateSet_no_dup (keyRes : String → Option String)
    (isfile : String → Bool) (fileBytes : String → List Nat) (l : List String) :
    ∀ (media : List Entry) (hc : Bool) (t : String),
      updateSet keyRes isfile fileBytes l media hc ≠ .error (.duplicateEntry t) := by
  induction l with
  | nil =>
    intro media hc t h
    simp [updateSet] at h
  | cons kv rest ih =>
    intro media hc t h
    simp only [updateSet] at h
    rcases hstep : updateSetStep keyRes isfile fileBytes kv media with e | m2 <;>
      rw [hstep] at h
    · rw [exceptBind_error] at h
      simp only [Except.error.injEq] at h
      exact updateSetStep_no_dup keyRes isfile fileBytes kv media t (by rw [hstep, h])
    · rw [exceptBind_ok] at h
      exact ih m2 true t h

theorem updateSet_err_of_bad (keyRes : String → Option String)
    (isfile : String → Bool) (fileBytes : String → List Nat) (l : List String) :
    ∀ (media : List Entry) (hc : Bool),
      (∃ kv ∈ l, BadSetArg isfile kv = true) →
      ∃ e, updateSet keyRes isfile fileBytes l media hc = .error e := by
  induction l with
  | nil =>
    rintro media hc ⟨kv, hkv, _⟩
    exact absurd hkv (List.not_mem_nil kv)
  | cons kv0 rest ih =>
    rintro media hc ⟨kv, hkv, hbad⟩
    simp only [updateSet]
    rcases hstep : updateSetStep keyRes isfile fileBytes kv0 media with e | m2
    · exact ⟨e, by rw [exceptBind_error]⟩
    · rw [exceptBind_ok]
      rcases List.mem_cons.mp hkv with heq | hmem
      · subst heq
        obtain ⟨e, he⟩ := updateSetStep_err_of_bad keyRes isfile fileBytes kv media hbad
        rw [hstep] at he
        exact absurd he (by simp)
      · exact ih m2 true ⟨kv, hmem, hbad⟩

/-! ## Claim theorems: update -/

/-- C3: a -set argument with no '=', with an empty value after the '=',
or naming a file that does not exist makes cli_update raise before the
write call at the end of the function, so no write is performed and the
archive file on disk stays untouched, no matter how many earlier -rm or
-set arguments were processed. -/
theorem cli_update_bad_set_no_write (keyRes : String → Option String)
    (isfile : String → Bool) (fileBytes : String → List Nat)
    (args : UpdateArgs) (icns : IcnsFile)
    (h : ∃ kv ∈ args.set, BadSetArg isfile kv = true) :
    ∃ e, cli_update keyRes isfile fileBytes args icns = .error e := by
  unfold cli_update
  rcases hr : updateRm keyRes args.rm icns.media false with e | r1
  · exact ⟨e, rfl⟩
  · obtain ⟨e, he⟩ := updateSet_err_of_bad keyRes isfile fileBytes args.set r1.1 r1.2 h
    refine ⟨e, ?_⟩
    simp only [exceptBind_ok]
    rw [he, exceptBind_error]

/-- Witness for C3: a -set argument without '=' yields an error. -/
theorem cli_update_bad_set_no_write_witness :
    ∃ e, cli_update (fun _ => none) (fun _ => false) (fun _ => [])
      ⟨"a.icns", none, [], ["bad"]⟩ ⟨[], false⟩ = .error e :=
  cli_update_bad_set_no_write (fun _ => none) (fun _ => false) (fun _ => [])
    ⟨"a.icns", none, [], ["bad"]⟩ ⟨[], false⟩ ⟨"bad", by decide, by decide⟩

/-- C5: cli_update passes force=True to add_media, so the update command
never fails with DuplicateEntryError, and a well-formed -set argument
whose resolved tag is already present replaces the entry in place (the
tag sequence of the archive is unchanged, so nothing is appended). -/
theorem cli_update_force_replace (keyRes : String → Option String)
    (isfile : String → Bool) (fileBytes : String → List Nat)
    (args : UpdateArgs) (icns : IcnsFile) (kv key val tag : String)
    (media : List Entry) (hc : Bool)
    (h1 : kv.toList.contains '=' = true) (h2 : pySplit kv '=' = [key, val])
    (h3 : val ≠ "") (h4 : isfile val = true) (h5 : keyRes key = some tag)
    (h6 : media.any (fun e => e.tag == tag) = true) :
    (∀ t, cli_update keyRes isfile fileBytes args icns ≠
      .error (.duplicateEntry t)) ∧
    updateSet keyRes isfile fileBytes [kv] media hc =
      .ok (replaceFirst media tag (fileBytes val), true) ∧
    (replaceFirst media tag (fileBytes val)).map Entry.tag =
      media.map Entry.tag := by
  refine ⟨?_, ?_, replaceFirst_map_tag media tag (fileBytes val)⟩
  · intro t h
    unfold cli_update at h
    rcases hr : updateRm keyRes args.rm icns.media false with e | r1 <;> rw [hr] at h
    · rw [exceptBind_error] at h
      simp only [Except.error.injEq] at h
      exact updateRm_no_dup keyRes args.rm icns.media false t (by rw [hr, h])
    · simp only [exceptBind_ok] at h
      rcases hs : updateSet keyRes isfile fileBytes args.set r1.1 r1.2 with e | r2 <;>
        rw [hs] at h
      · rw [exceptBind_error] at h
        simp only [Except.error.injEq] at h
        exact updateSet_no_dup keyRes isfile fileBytes args.set r1.1 r1.2 t
          (by rw [hs, h])
      · simp only [exceptBind_ok] at h
        split at h <;> simp at h
  · simp only [updateSet]
    rw [updateSetStep_eq_add keyRes isfile fileBytes kv key val tag media h1 h2 h3 h4 h5,
      add_media_force_ok, if_pos h6, exceptBind_ok]

/-- Witness for C5 at a concrete two-entry archive whose first tag is
replaced. -/
theorem cli_update_force_replace_witness :
    (∀ t, cli_update (fun _ => some "ic10") (fun _ => true) (fun _ => [1])
      ⟨"f.icns", none, [], []⟩ ⟨[], false⟩ ≠ .error (.duplicateEntry t)) ∧
    updateSet (fun _ => some "ic10") (fun _ => true) (fun _ => [1]) ["k=v"]
      [⟨"ic10", [9]⟩, ⟨"ic11", [8]⟩] false =
      .ok (replaceFirst [⟨"ic10", [9]⟩, ⟨"ic11", [8]⟩] "ic10"
        ((fun _ => ([1] : List Nat)) "v"), true) ∧
    (replaceFirst [⟨"ic10", [9]⟩, ⟨"ic11", [8]⟩] "ic10"
        ((fun _ => ([1] : List Nat)) "v")).map Entry.tag =
      ([⟨"ic10", [9]⟩, ⟨"ic11", [8]⟩] : List Entry).map Entry.tag :=
  cli_update_force_replace (fun _ => some "ic10") (fun _ => true) (fun _ => [1])
    ⟨"f.icns", none, [], []⟩ ⟨[], false⟩ "k=v" "k" "v" "ic10"
    [⟨"ic10", [9]⟩, ⟨"ic11", [8]⟩] false
    (by decide) (by decide) (by decide) rfl rfl (by decide)

/-- C6: every write performed by cli_update passes toc=icns.has_toc(), so
the presence of a lookup table is preserved across every update. -/
theorem cli_update_toc_preserved (keyRes : String → Option String)
    (isfile : String → Bool) (fileBytes : String → List Nat)
    (args : UpdateArgs) (icns : IcnsFile)
    (ws : List (String × List Entry × Bool))
    (h : cli_update keyRes isfile fileBytes args icns = .ok ws) :
    ∀ w ∈ ws, w.2.2 = IcnsFile.has_toc icns := by
  unfold cli_update at h
  rcases hr : updateRm keyRes args.rm icns.media false with e | r1 <;> rw [hr] at h
  · rw [exceptBind_error] at h
    simp at h
  · simp only [exceptBind_ok] at h
    rcases hs : updateSet keyRes isfile fileBytes args.set r1.1 r1.2 with e | r2 <;>
      rw [hs] at h
    · rw [exceptBind_error] at h
      simp at h
    · simp only [exceptBind_ok] at h
      split at h <;> simp only [Except.ok.injEq] at h <;> subst h
      · intro w hw
        rw [List.mem_singleton] at hw
        subst hw
        rfl
      · intro w hw
        exact absurd hw (List.not_mem_nil w)

/-- Witness for C6: an update that writes to a separate output preserves
the toc flag of the parsed archive. -/
theorem cli_update_toc_preserved_witness :
    (("o", [(⟨"zz", [1]⟩ : Entry)], true) : String × List Entry × Bool).2.2 =
      IcnsFile.has_toc ⟨[⟨"zz", [0]⟩], true⟩ :=
  cli_update_toc_preserved (fun _ => some "zz") (fun _ => true) (fun _ => [1])
    ⟨"f.icns", some "o", [], ["k=v"]⟩ ⟨[⟨"zz", [0]⟩], true⟩
    [("o", [⟨"zz", [1]⟩], true)] rfl ("o", [⟨"zz", [1]⟩], true) (by decide)

/-- C7: with no -set arguments, no --output option, and every -rm key
resolving to a tag absent from the archive, has_changes stays False, so
write is never called and the file on disk is untouched. -/
theorem cli_update_noop_no_write (keyRes : String → Option String)
    (isfile : String → Bool) (fileBytes : String → List Nat)
    (args : UpdateArgs) (icns : IcnsFile)
    (hset : args.set = []) (hout : args.output = none)
    (hrm : ∀ x ∈ args.rm, ∃ t, keyRes x = some t ∧ ∀ e ∈ icns.media, e.tag ≠ t) :
    cli_update keyRes isfile fileBytes args icns = .ok [] := by
  unfold cli_update
  simp only [updateRm_noop keyRes args.rm icns.media hrm, exceptBind_ok, hset, hout,
    updateSet, pyTruthyOpt, Bool.or_false]
  rfl

/-- Witness for C7: removing an absent key from a one-entry archive
writes nothing. -/
theorem cli_update_noop_no_write_witness :
    cli_update (fun _ => some "zzzz") (fun _ => true) (fun _ => [1])
      ⟨"f.icns", none, ["dark"], []⟩ ⟨[⟨"ic07", [1]⟩], true⟩ = .ok [] :=
  cli_update_noop_no_write (fun _ => some "zzzz") (fun _ => true) (fun _ => [1])
    ⟨"f.icns", none, ["dark"], []⟩ ⟨[⟨"ic07", [1]⟩], true⟩ rfl rfl
    (fun x _ => ⟨"zzzz", rfl, by decide⟩)
